import Mathlib

/-!
Shallow embedding of the ouroboros-systems simulation core
(electrical component network and hydraulic actuator), together with
theorems checking the repository's specification against it.

Numeric model: the source computes over IEEE-754 `f64`.  The electrical
components are embedded over exact rationals `ℚ` (no overflow, NaN or
rounding arises in the statements proved about them).  The hydraulic
actuator, whose behaviour at the zero-volume rest state hinges on IEEE
division `0.0 / 0.0 = NaN`, is embedded over the type `F` below: an exact
rational together with an explicit, propagating NaN element.  Infinities
are not modelled; the only division by zero reached in this development is
`0/0`, which IEEE-754 also maps to NaN.
-/

/-- A floating-point value: either NaN or an exact finite rational.
NaN propagates through arithmetic and makes every comparison false,
as in IEEE-754.  (Infinities and rounding are not modelled.) -/
inductive F where
  | nan : F
  | fin (q : ℚ) : F
  deriving DecidableEq, Repr

def F.add : F → F → F
  | .fin a, .fin b => .fin (a + b)
  | _, _ => .nan

def F.sub : F → F → F
  | .fin a, .fin b => .fin (a - b)
  | _, _ => .nan

def F.mul : F → F → F
  | .fin a, .fin b => .fin (a * b)
  | _, _ => .nan

def F.neg : F → F
  | .fin a => .fin (-a)
  | .nan => .nan

/-- IEEE division restricted to the cases this development reaches:
division by zero yields NaN (in the source the only zero denominator that
occurs is `0.0 / 0.0`, which is NaN in IEEE-754 as well). -/
def F.div : F → F → F
  | .fin a, .fin b => if b = 0 then .nan else .fin (a / b)
  | _, _ => .nan

/-- The `<` comparison on f64: false whenever either side is NaN. -/
def F.lt : F → F → Bool
  | .fin a, .fin b => decide (a < b)
  | _, _ => false

/-- The `<=` comparison on f64: false whenever either side is NaN. -/
def F.le : F → F → Bool
  | .fin a, .fin b => decide (a ≤ b)
  | _, _ => false

def F.abs : F → F
  | .fin a => .fin |a|
  | .nan => .nan

instance : Add F := ⟨F.add⟩
instance : Sub F := ⟨F.sub⟩
instance : Mul F := ⟨F.mul⟩
instance : Neg F := ⟨F.neg⟩
instance : Div F := ⟨F.div⟩

/-- The generic `clamp` helper of `hydraulic_actuator.rs`:
`if value < min { min } else if value > max { max } else { value }`. -/
def F.clamp (value lo hi : F) : F :=
  if F.lt value lo then lo else if F.lt hi value then hi else value

/-- `f64::clamp` as used by `generic_dc_component.rs` on finite inputs. -/
def qclamp (x lo hi : ℚ) : ℚ :=
  if x < lo then lo else if x > hi then hi else x

/-- The IEEE-754 double nearest π, the value of `std::f64::consts::PI`. -/
def pi64 : ℚ := 884279719003555 / 281474976710656

/-! ## Generator (`components/ac/generator.rs`) -/

structure Generator where
  num_poles : ℚ
  rated_power : ℚ
  rated_voltage : ℚ
  rated_frequency : ℚ
  efficiency : ℚ
  internal_resistance : ℚ
  mechanical_input_power : ℚ
  rpm : ℚ
  output_power : ℚ
  output_voltage : ℚ
  spin_up_time : ℚ
  current_rpm : ℚ
  is_on : Bool
  time_on : ℚ
  phase_count : ℕ
  deriving DecidableEq, Repr

/-- `Generator::new`.  Note the source stores `efficiency * 100.0` with no
clamping, and seeds `rpm` with `rated_frequency * 60.0 / num_poles`. -/
def Generator.new (num_poles rated_power rated_voltage rated_frequency
    efficiency internal_resistance spin_up_time : ℚ) (phase_count : ℕ) : Generator :=
  { num_poles := num_poles
    rated_power := rated_power
    rated_voltage := rated_voltage
    rated_frequency := rated_frequency
    efficiency := efficiency * 100
    internal_resistance := internal_resistance
    mechanical_input_power := 0
    rpm := rated_frequency * 60 / num_poles
    output_power := 0
    output_voltage := 0
    spin_up_time := spin_up_time
    current_rpm := 0
    is_on := false
    time_on := 0
    phase_count := phase_count }

def Generator.set_mechanical_input (g : Generator) (power rpm : ℚ) : Generator :=
  if g.is_on then { g with mechanical_input_power := power, rpm := rpm } else g

def Generator.turn_on (g : Generator) : Generator :=
  { g with is_on := true, time_on := 0 }

def Generator.turn_off (g : Generator) : Generator :=
  { g with is_on := false, output_voltage := 0, output_power := 0, current_rpm := 0 }

/-- `Generator::update` (the `ElectricalComponent` impl).  The spin
progress is `(time_on / spin_up_time * 1000.0).min(1.0)`, exactly as in
the source (including the `* 1000.0` factor). -/
def Generator.update (g : Generator) (dt : ℚ) : Generator :=
  if !g.is_on then
    { g with output_power := 0, output_voltage := 0, current_rpm := 0 }
  else
    let time_on := g.time_on + dt
    let spin_progress :=
      if g.spin_up_time > 0 then min (time_on / g.spin_up_time * 1000) 1 else 1
    let current_rpm := g.rpm * spin_progress
    let expected_rpm := g.rated_frequency * 60 / g.num_poles
    let efficiency_factor :=
      if current_rpm ≥ expected_rpm then g.efficiency
      else g.efficiency * (g.rpm / expected_rpm)
    let available_electrical_power := g.mechanical_input_power * efficiency_factor
    let output_power := min available_electrical_power g.rated_power
    let current := output_power / g.rated_voltage * (g.phase_count : ℚ)
    let voltage_drop := current * g.internal_resistance
    let output_voltage := max (g.rated_voltage - voltage_drop) 0
    { g with time_on := time_on, current_rpm := current_rpm,
             output_power := output_power, output_voltage := output_voltage }

def Generator.get_output_power (g : Generator) : ℚ := g.output_power

def Generator.get_output_voltage (g : Generator) : ℚ := g.output_voltage

def Generator.get_output_current (g : Generator) : ℚ :=
  if g.output_voltage > 0 then g.output_power / g.output_voltage else 0

/-! ## Bus (`components/shared/bus.rs`) -/

structure Bus where
  voltage : ℚ
  power : ℚ
  deriving DecidableEq, Repr

def Bus.update (b : Bus) (_dt : ℚ) : Bus := b

def Bus.get_output_power (b : Bus) : ℚ := b.power

def Bus.get_output_voltage (b : Bus) : ℚ := b.voltage

/-- The default `ElectricalComponent::get_output_current` derivation,
used by `Bus`, which does not override it. -/
def Bus.get_output_current (b : Bus) : ℚ :=
  if b.voltage > 0 then b.power / b.voltage else 0

/-! ## CircuitBreaker (`components/shared/circuit_breaker.rs`) -/

inductive TripCurve where
  | Instantaneous : TripCurve
  | ShortDelay (delay : ℚ) : TripCurve
  | LongDelay (delay : ℚ) : TripCurve
  | InverseTime : TripCurve
  deriving DecidableEq, Repr

structure CircuitBreaker where
  name : String
  rating : ℚ
  is_tripped : Bool
  input_voltage : ℚ
  input_power : ℚ
  input_current : ℚ
  trip_curve : TripCurve
  overcurrent_time : ℚ
  auto_reset : Bool
  reset_delay : ℚ
  trip_time : ℚ
  deriving DecidableEq, Repr

def CircuitBreaker.new (name : String) (rating_amps : ℚ) (trip_curve : TripCurve)
    (auto_reset : Bool) (reset_delay : ℚ) : CircuitBreaker :=
  { name := name
    rating := rating_amps
    is_tripped := false
    input_voltage := 0
    input_power := 0
    input_current := 0
    trip_curve := trip_curve
    overcurrent_time := 0
    auto_reset := auto_reset
    reset_delay := reset_delay
    trip_time := 0 }

def CircuitBreaker.reset (cb : CircuitBreaker) : CircuitBreaker :=
  { cb with is_tripped := false, trip_time := 0, overcurrent_time := 0 }

/-- `CircuitBreaker::should_trip` (the `dt` parameter is unused in the
source as well).  `0.1` in the source is written `1/10` here. -/
def CircuitBreaker.should_trip (cb : CircuitBreaker) (_dt : ℚ) : Bool :=
  if cb.input_current ≤ cb.rating then false
  else
    match cb.trip_curve with
    | .Instantaneous => true
    | .ShortDelay delay => decide (cb.overcurrent_time ≥ delay)
    | .LongDelay delay => decide (cb.overcurrent_time ≥ delay)
    | .InverseTime =>
      let overload := cb.input_current / cb.rating
      decide (cb.overcurrent_time ≥ 1 / 10 / (overload * overload))

/-- `CircuitBreaker::update`: `dt` is in milliseconds and converted to
seconds; the overcurrent dwell timer is advanced (or reset) before the
trip decision. -/
def CircuitBreaker.update (cb : CircuitBreaker) (dt : ℚ) : CircuitBreaker :=
  let dt_seconds := dt / 1000
  if cb.is_tripped then
    if cb.auto_reset then
      let cb2 := { cb with trip_time := cb.trip_time + dt_seconds }
      if cb2.trip_time ≥ cb2.reset_delay then cb2.reset else cb2
    else cb
  else
    let cb1 :=
      if cb.input_current > cb.rating then
        { cb with overcurrent_time := cb.overcurrent_time + dt_seconds }
      else
        { cb with overcurrent_time := 0 }
    if cb1.should_trip dt then { cb1 with is_tripped := true, trip_time := 0 } else cb1

def CircuitBreaker.get_output_power (cb : CircuitBreaker) : ℚ :=
  if cb.is_tripped then 0 else cb.input_power

def CircuitBreaker.get_output_voltage (cb : CircuitBreaker) : ℚ :=
  if cb.is_tripped then 0 else cb.input_voltage

def CircuitBreaker.get_output_current (cb : CircuitBreaker) : ℚ :=
  if cb.is_tripped then 0 else cb.input_current

def CircuitBreaker.set_input_power (cb : CircuitBreaker) (p : ℚ) : CircuitBreaker :=
  { cb with input_power := p }

def CircuitBreaker.set_input_voltage (cb : CircuitBreaker) (v : ℚ) : CircuitBreaker :=
  { cb with input_voltage := v }

def CircuitBreaker.set_input_current (cb : CircuitBreaker) (c : ℚ) : CircuitBreaker :=
  { cb with input_current := c }

/-! ## GenericDcComponent (`components/dc/generic_dc_component.rs`) -/

inductive VoltageResponse where
  | Linear : VoltageResponse
  | Binary : VoltageResponse
  | Regulated : VoltageResponse
  | Proportional : VoltageResponse
  deriving DecidableEq, Repr

structure GenericDcComponent where
  name : String
  nominal_voltage : ℚ
  nominal_power : ℚ
  /-- `none` models the `f64::INFINITY` stored when nominal power or
  voltage is non-positive; this field is never read by the source. -/
  resistance : Option ℚ
  min_voltage : ℚ
  max_voltage : ℚ
  voltage_response : VoltageResponse
  power_factor : ℚ
  input_voltage : ℚ
  input_power : ℚ
  input_current : ℚ
  is_on : Bool
  load_factor : ℚ
  deriving DecidableEq, Repr

def GenericDcComponent.new (name : String) (nominal_voltage nominal_power
    min_voltage max_voltage : ℚ) (voltage_response : VoltageResponse)
    (power_factor : ℚ) : GenericDcComponent :=
  { name := name
    nominal_voltage := nominal_voltage
    nominal_power := nominal_power
    resistance :=
      if nominal_power > 0 ∧ nominal_voltage > 0 then
        some ((nominal_voltage * nominal_voltage) / nominal_power)
      else none
    min_voltage := min_voltage
    max_voltage := max_voltage
    voltage_response := voltage_response
    power_factor := qclamp power_factor 0 1
    input_voltage := 0
    input_power := 0
    input_current := 0
    is_on := false
    load_factor := 1 }

def GenericDcComponent.set_power_state (l : GenericDcComponent) (o : Bool) :
    GenericDcComponent :=
  { l with is_on := o }

def GenericDcComponent.set_load_factor (l : GenericDcComponent) (factor : ℚ) :
    GenericDcComponent :=
  { l with load_factor := qclamp factor 0 1 }

/-- `GenericDcComponent::get_actual_power`: the selectable
voltage-response laws. -/
def GenericDcComponent.get_actual_power (l : GenericDcComponent) : ℚ :=
  match l.voltage_response with
  | .Binary =>
    if l.input_voltage ≥ l.min_voltage ∧ l.is_on then
      l.nominal_power * l.load_factor * l.power_factor
    else 0
  | .Linear =>
    if !l.is_on ∨ l.input_voltage < l.min_voltage then 0
    else
      let vr := l.input_voltage / l.nominal_voltage
      l.nominal_power * vr * l.load_factor * l.power_factor
  | .Regulated =>
    if !l.is_on ∨ l.input_voltage < l.min_voltage then 0
    else l.nominal_power * l.load_factor * l.power_factor
  | .Proportional =>
    if !l.is_on ∨ l.input_voltage < l.min_voltage then 0
    else
      let vf := min ((l.input_voltage - l.min_voltage) /
        (l.nominal_voltage - l.min_voltage)) 1
      l.nominal_power * vf * l.power_factor * l.load_factor

/-- `GenericDcComponent::update` prints diagnostics only; it mutates no
simulated state. -/
def GenericDcComponent.update (l : GenericDcComponent) (_dt : ℚ) :
    GenericDcComponent := l

def GenericDcComponent.get_output_power (_l : GenericDcComponent) : ℚ := 0

def GenericDcComponent.get_output_voltage (_l : GenericDcComponent) : ℚ := 0

def GenericDcComponent.get_output_current (_l : GenericDcComponent) : ℚ := 0

def GenericDcComponent.get_input_current (l : GenericDcComponent) : ℚ :=
  if l.input_voltage > 0 then l.get_actual_power / l.input_voltage else 0

/-! ## HydraulicActuator (`hydraulic/components/hydraulic_actuator.rs`) -/

structure HydraulicActuator where
  bore_diameter : F
  rod_diameter : F
  stroke_length : F
  current_position : F
  current_velocity : F
  current_acceleration : F
  fluid_bulk_modulus : F
  fluid_density : F
  fluid_viscosity : F
  valve_max_flow_rate : F
  valve_opening : F
  cap_end_pressure : F
  rod_end_pressure : F
  cap_end_volume : F
  rod_end_volume : F
  internal_leakage_coefficient : F
  external_leakage_coefficient : F
  static_friction : F
  dynamic_friction_coefficient : F
  external_force : F
  deriving DecidableEq, Repr

/-- `calculate_area`: area of a circle given the diameter,
`PI * radius * radius` with `radius = diameter / 2.0`. -/
def calculate_area (diameter : F) : F :=
  let radius := diameter / F.fin 2
  F.fin pi64 * radius * radius

/-- The cap-end piston area as computed at the top of
`HydraulicActuator::update` (line 104). -/
def HydraulicActuator.cap_end_area (a : HydraulicActuator) : F :=
  calculate_area a.bore_diameter

/-- The rod-end piston area exactly as computed by the source
(line 105 of `hydraulic_actuator.rs`, and again in `new`):
`calculate_area(self.rod_diameter) - calculate_area(self.rod_diameter)`. -/
def HydraulicActuator.rod_end_area (a : HydraulicActuator) : F :=
  calculate_area a.rod_diameter - calculate_area a.rod_diameter

/-- `HydraulicActuator::new`: starts at position 0 with zero pressures;
chamber volumes are areas times (remaining) travel. -/
def HydraulicActuator.new (bore_diameter rod_diameter stroke_length
    fluid_bulk_modulus fluid_density fluid_viscosity valve_max_flow_rate
    static_friction dynamic_friction_coefficient internal_leakage_coefficient
    external_leakage_coefficient : F) : HydraulicActuator :=
  let current_position := F.fin 0
  let cap_end_area := calculate_area bore_diameter
  let rod_end_area := calculate_area rod_diameter - calculate_area rod_diameter
  { bore_diameter := bore_diameter
    rod_diameter := rod_diameter
    stroke_length := stroke_length
    current_position := current_position
    current_velocity := F.fin 0
    current_acceleration := F.fin 0
    fluid_bulk_modulus := fluid_bulk_modulus
    fluid_density := fluid_density
    fluid_viscosity := fluid_viscosity
    valve_max_flow_rate := valve_max_flow_rate
    valve_opening := F.fin 0
    cap_end_pressure := F.fin 0
    rod_end_pressure := F.fin 0
    cap_end_volume := cap_end_area * current_position
    rod_end_volume := rod_end_area * (stroke_length - current_position)
    internal_leakage_coefficient := internal_leakage_coefficient
    external_leakage_coefficient := external_leakage_coefficient
    static_friction := static_friction
    dynamic_friction_coefficient := dynamic_friction_coefficient
    external_force := F.fin 0 }

def HydraulicActuator.set_valve_opening (a : HydraulicActuator) (opening : F) :
    HydraulicActuator :=
  { a with valve_opening := F.clamp opening (F.fin 0) (F.fin 1) }

def HydraulicActuator.set_external_force (a : HydraulicActuator) (force : F) :
    HydraulicActuator :=
  { a with external_force := force }

def HydraulicActuator.set_supply_pressure (a : HydraulicActuator) (pressure : F) :
    HydraulicActuator :=
  if F.lt (F.fin 0) a.valve_opening then { a with cap_end_pressure := pressure } else a

/-- `HydraulicActuator::update`, step by step as in the source: valve
flows, leakage, bulk-modulus pressure update, force balance with
stiction/viscous friction, explicit-Euler integration, position clamp with
end-stop velocity zeroing, and chamber-volume recomputation. -/
def HydraulicActuator.update (a : HydraulicActuator) (delta_time : F) :
    HydraulicActuator :=
  let cap_end_area := a.cap_end_area
  let rod_end_area := a.rod_end_area
  let max_flow := a.valve_max_flow_rate * a.valve_opening
  let delta_p := a.cap_end_pressure - a.rod_end_pressure
  let internal_leakage_flow := a.internal_leakage_coefficient * delta_p
  let cap_external_leakage_flow := a.external_leakage_coefficient * a.cap_end_pressure
  let rod_external_leakage_flow := a.external_leakage_coefficient * a.rod_end_pressure
  let cap_end_flow := if F.lt (F.fin 0) a.valve_opening then max_flow else F.fin 0
  let rod_end_flow := if F.lt a.valve_opening (F.fin 0) then -max_flow else F.fin 0
  let net_cap_flow := cap_end_flow - internal_leakage_flow - cap_external_leakage_flow
  let net_rod_flow := rod_end_flow - internal_leakage_flow - rod_external_leakage_flow
  let cap_pressure_change :=
    -(a.fluid_bulk_modulus * (net_cap_flow * delta_time / a.cap_end_volume))
  let rod_pressure_change :=
    -(a.fluid_bulk_modulus * (net_rod_flow * delta_time / a.rod_end_volume))
  let cap_end_pressure := a.cap_end_pressure + cap_pressure_change
  let rod_end_pressure := a.rod_end_pressure + rod_pressure_change
  let cap_force := cap_end_pressure * cap_end_area
  let rod_force := rod_end_pressure * rod_end_area
  let hydraulic_force := cap_force - rod_force
  let friction_force :=
    if F.lt (F.abs a.current_velocity) (F.fin (1 / 1000000)) then
      F.clamp (hydraulic_force + a.external_force) (-a.static_friction) a.static_friction
    else
      let direction : ℚ := if F.lt (F.fin 0) a.current_velocity then 1 else -1
      F.fin direction * a.dynamic_friction_coefficient * F.abs a.current_velocity
  let net_force := hydraulic_force + a.external_force - friction_force
  let effective_mass := F.fin 1
  let current_acceleration := net_force / effective_mass
  let current_velocity := a.current_velocity + current_acceleration * delta_time
  let position_change := current_velocity * delta_time +
    F.fin (1 / 2) * current_acceleration * delta_time * delta_time
  let unclamped_position := a.current_position + position_change
  let current_position := F.clamp unclamped_position (F.fin 0) a.stroke_length
  let at_end_stop :=
    (F.le current_position (F.fin 0) || F.le a.stroke_length current_position) &&
      ((F.le current_position (F.fin 0) && F.lt current_velocity (F.fin 0)) ||
        (F.le a.stroke_length current_position && F.lt (F.fin 0) current_velocity))
  let current_velocity := if at_end_stop then F.fin 0 else current_velocity
  let current_acceleration := if at_end_stop then F.fin 0 else current_acceleration
  { a with
    cap_end_pressure := cap_end_pressure
    rod_end_pressure := rod_end_pressure
    current_acceleration := current_acceleration
    current_velocity := current_velocity
    current_position := current_position
    cap_end_volume := cap_end_area * current_position
    rod_end_volume := rod_end_area * (a.stroke_length - current_position) }

def HydraulicActuator.position (a : HydraulicActuator) : F := a.current_position

def HydraulicActuator.velocity (a : HydraulicActuator) : F := a.current_velocity

def HydraulicActuator.pressure (a : HydraulicActuator) : F := a.cap_end_pressure

/-! ## The component network (`electrical/mod.rs`)

The source stores components behind `Box<dyn ElectricalComponent>`; the
closed set of implementers in the repository is `Generator`, `Bus`,
`CircuitBreaker` and `GenericDcComponent`, embedded here as a sum type.
Node indices are the position of the component in the insertion list
(petgraph node indices are issued densely in insertion order). -/

inductive Component where
  | gen (g : Generator) : Component
  | bus (b : Bus) : Component
  | breaker (cb : CircuitBreaker) : Component
  | load (l : GenericDcComponent) : Component
  deriving DecidableEq, Repr

/-- Dynamic dispatch of `ElectricalComponent::update`. -/
def Component.update (dt : ℚ) : Component → Component
  | .gen g => .gen (g.update dt)
  | .bus b => .bus (b.update dt)
  | .breaker cb => .breaker (cb.update dt)
  | .load l => .load (l.update dt)

def Component.get_output_voltage : Component → ℚ
  | .gen g => g.get_output_voltage
  | .bus b => b.get_output_voltage
  | .breaker cb => cb.get_output_voltage
  | .load l => l.get_output_voltage

def Component.get_output_power : Component → ℚ
  | .gen g => g.get_output_power
  | .bus b => b.get_output_power
  | .breaker cb => cb.get_output_power
  | .load l => l.get_output_power

/-- `set_input_voltage`: generators ignore it; buses store it as their
(pass-through) voltage; breakers and loads latch it. -/
def Component.set_input_voltage (v : ℚ) : Component → Component
  | .gen g => .gen g
  | .bus b => .bus { b with voltage := v }
  | .breaker cb => .breaker (cb.set_input_voltage v)
  | .load l => .load { l with input_voltage := v }

def Component.set_input_power (p : ℚ) : Component → Component
  | .gen g => .gen g
  | .bus b => .bus { b with power := p }
  | .breaker cb => .breaker (cb.set_input_power p)
  | .load l => .load { l with input_power := p }

def Component.set_input_current (c : ℚ) : Component → Component
  | .gen g => .gen g
  | .bus b => .bus b
  | .breaker cb => .breaker (cb.set_input_current c)
  | .load l => .load { l with input_current := c }

/-- First-match association-list lookup; `HashMap::get`/`insert` is
modelled by consing new entries at the front and taking the first hit. -/
def alookup {α β : Type} [DecidableEq α] (m : List (α × β)) (k : α) : Option β :=
  (m.find? (fun p => decide (p.1 = k))).map Prod.snd

/-- `ElectricalSystem` (`electrical/mod.rs`, lines 50-56): a directed
multigraph (petgraph `DiGraph`, which permits parallel edges) plus keyed
maps for snapshotted node voltages, cached edge currents and wire
resistances.  Node `i` is the component at index `i` of `components`. -/
structure ElectricalSystem where
  components : List Component
  edges : List (ℕ × ℕ)
  node_voltage : List (ℕ × ℚ)
  edge_current : List ((ℕ × ℕ) × ℚ)
  wire_resistance : List ((ℕ × ℕ) × ℚ)
  deriving DecidableEq, Repr

def ElectricalSystem.empty : ElectricalSystem :=
  { components := [], edges := [], node_voltage := [], edge_current := [],
    wire_resistance := [] }

/-- `add_component`: registers the component and returns its node index. -/
def ElectricalSystem.add_component (sys : ElectricalSystem) (c : Component) :
    ElectricalSystem × ℕ :=
  ({ sys with components := sys.components ++ [c] }, sys.components.length)

/-- `connect_with_wire`: `graph.add_edge` appends a (possibly parallel)
edge; the cached current for the ordered pair is reset to 0 and the wire
resistance overwritten. -/
def ElectricalSystem.connect_with_wire (sys : ElectricalSystem)
    (f t : ℕ) (resistance : ℚ) : ElectricalSystem :=
  { sys with
    edges := sys.edges ++ [(f, t)]
    edge_current := ((f, t), 0) :: sys.edge_current
    wire_resistance := ((f, t), resistance) :: sys.wire_resistance }

def ElectricalSystem.connect_no_resistance (sys : ElectricalSystem)
    (f t : ℕ) : ElectricalSystem :=
  sys.connect_with_wire f t (1 / 1000)

/-- The current the flow pass computes for one edge: requires both
endpoint components and a stored wire resistance, then
`(v_from - v_to) / r` when `r > 0`, else `0`.  (The source reads the live
component outputs and `wire_resistance`, neither of which the flow loop
mutates, so they are read off the pre-pass system here.) -/
def edge_current_for (comps : List Component)
    (wres : List ((ℕ × ℕ) × ℚ)) (e : ℕ × ℕ) : Option ℚ :=
  match comps[e.1]?, comps[e.2]? with
  | some fc, some tc =>
    match alookup wres e with
    | some r =>
      some (if r > 0 then (fc.get_output_voltage - tc.get_output_voltage) / r else 0)
    | none => none
  | _, _ => none

/-- The edge loop of `calculate_current_flow`: cache the recomputed
current of every edge, in edge-insertion order. -/
def flow_fold (comps : List Component) (wres : List ((ℕ × ℕ) × ℚ))
    (m : List ((ℕ × ℕ) × ℚ)) : List (ℕ × ℕ) → List ((ℕ × ℕ) × ℚ)
  | [] => m
  | e :: rest =>
    flow_fold comps wres
      (match edge_current_for comps wres e with
       | some cur => (e, cur) :: m
       | none => m) rest

/-- `calculate_current_flow` (lines 90-112): recompute and cache every
edge's current, in edge-insertion order. -/
def ElectricalSystem.calculate_current_flow (sys : ElectricalSystem) :
    ElectricalSystem :=
  { sys with
    edge_current :=
      flow_fold sys.components sys.wire_resistance sys.edge_current sys.edges }

/-- `true` when node `n` has no incoming edge from a node still in
`remaining` (Kahn step predicate). -/
def no_incoming (edges : List (ℕ × ℕ)) (remaining : List ℕ) (n : ℕ) : Bool :=
  edges.all (fun e => !(decide (e.2 = n) && remaining.contains e.1))

/-- Kahn's algorithm with explicit fuel.  Returns `none` exactly when the
remaining nodes contain a cycle (petgraph's `toposort` returns `Err`);
the particular order produced when it succeeds is implementation-defined
in petgraph, and no theorem below depends on the choice. -/
def kahn (edges : List (ℕ × ℕ)) : ℕ → List ℕ → Option (List ℕ)
  | 0, remaining => if remaining.isEmpty then some [] else none
  | fuel + 1, remaining =>
    if remaining.isEmpty then some []
    else
      match remaining.find? (fun n => no_incoming edges remaining n) with
      | none => none
      | some n => (kahn edges fuel (remaining.erase n)).map (n :: ·)

/-- `toposort(&self.graph, None)` of `update_system`, as an `Option`. -/
def ElectricalSystem.toposort (sys : ElectricalSystem) : Option (List ℕ) :=
  kahn sys.edges sys.components.length (List.range sys.components.length)

/-- `graph.neighbors(n)`: petgraph yields out-neighbors in reverse
edge-insertion order; parallel edges yield the neighbor repeatedly. -/
def neighbors_of (edges : List (ℕ × ℕ)) (n : ℕ) : List ℕ :=
  ((edges.filter (fun e => decide (e.1 = n))).map Prod.snd).reverse

/-- One node of pass 1 of `update_system` (lines 117-121): update the
component in place and snapshot its output voltage. -/
def ElectricalSystem.update_step (dt : ℚ) (s : ElectricalSystem) (n : ℕ) :
    ElectricalSystem :=
  match s.components[n]? with
  | some c =>
    let c2 := c.update dt
    { s with components := s.components.set n c2,
             node_voltage := (n, c2.get_output_voltage) :: s.node_voltage }
  | none => s

/-- Pass 1 of `update_system` (lines 116-122): update every component in
topological order. -/
def ElectricalSystem.update_pass (sys : ElectricalSystem) (dt : ℚ)
    (order : List ℕ) : ElectricalSystem :=
  order.foldl (ElectricalSystem.update_step dt) sys

/-- The body of the neighbor loop of pass 2 (lines 131-139): push node
`n`'s output voltage `v` and power `p`, and the cached current of edge
`(n, nb)`, onto neighbor `nb`. -/
def ElectricalSystem.push_step (n : ℕ) (v p : ℚ) (s2 : ElectricalSystem)
    (nb : ℕ) : ElectricalSystem :=
  match s2.components[nb]? with
  | some nc =>
    let nc2 := (nc.set_input_voltage v).set_input_power p
    let nc3 :=
      match alookup s2.edge_current (n, nb) with
      | some cur => nc2.set_input_current cur
      | none => nc2
    { s2 with components := s2.components.set nb nc3 }
  | none => s2

/-- One node of pass 2 (lines 126-142): read the node's current output
voltage and power once, then push them to every downstream neighbor. -/
def ElectricalSystem.propagate_step (s : ElectricalSystem) (n : ℕ) :
    ElectricalSystem :=
  match s.components[n]? with
  | some c =>
    (neighbors_of s.edges n).foldl
      (ElectricalSystem.push_step n c.get_output_voltage c.get_output_power) s
  | none => s

/-- Pass 2 of `update_system`: propagate in topological order. -/
def ElectricalSystem.propagate_pass (sys : ElectricalSystem)
    (order : List ℕ) : ElectricalSystem :=
  order.foldl ElectricalSystem.propagate_step sys

/-- `update_system` (lines 114-144): if the graph topologically sorts,
run pass 1, recompute all edge currents, then propagate; a failed sort
(`if let Ok(..)` falling through) leaves the system untouched. -/
def ElectricalSystem.update_system (sys : ElectricalSystem) (dt : ℚ) :
    ElectricalSystem :=
  match sys.toposort with
  | some sorted_nodes =>
    ((sys.update_pass dt sorted_nodes).calculate_current_flow).propagate_pass
      sorted_nodes
  | none => sys

def ElectricalSystem.get_current (sys : ElectricalSystem) (f t : ℕ) : Option ℚ :=
  alookup sys.edge_current (f, t)

/-- `check_overcurrent`: every cached edge current above the limit. -/
def ElectricalSystem.check_overcurrent (sys : ElectricalSystem)
    (max_current : ℚ) : List ((ℕ × ℕ) × ℚ) :=
  sys.edge_current.filter (fun p => decide (p.2 > max_current))

/-! ## Concrete systems and auxiliary operation types used by the
theorems below -/

/-- A two-bus network with a single 2 Ω wire, for the C1 witness. -/
def c1_sys : ElectricalSystem :=
  ((ElectricalSystem.empty.add_component
      (Component.bus { voltage := 28, power := 3 })).1.add_component
      (Component.bus { voltage := 5, power := 0 })).1.connect_with_wire 0 1 2

/-- A two-node cyclic network (edges `(0,1)` and `(1,0)`). -/
def c2_sys : ElectricalSystem :=
  (((ElectricalSystem.empty.add_component
      (Component.bus { voltage := 28, power := 0 })).1.add_component
      (Component.bus { voltage := 12, power := 0 })).1.connect_with_wire
      0 1 1).connect_with_wire 1 0 1

/-- `k` consecutive `update(dt)` calls on a breaker. -/
def iter_update (cb : CircuitBreaker) (dt : ℚ) : ℕ → CircuitBreaker
  | 0 => cb
  | k + 1 => (iter_update cb dt k).update dt

/-- The ShortDelay(0.2 s) breaker of the example wiring, latched at
20 A against its 15 A rating. -/
def c4_cb : CircuitBreaker :=
  (CircuitBreaker.new "Avionics CB" 15 (TripCurve.ShortDelay (2/10))
    false 0).set_input_current 20

/-- The operations the network engine and callers can apply to a breaker
between manual resets: per-tick updates and the three input setters. -/
inductive CBOp where
  | upd (dt : ℚ) : CBOp
  | set_v (v : ℚ) : CBOp
  | set_p (p : ℚ) : CBOp
  | set_i (i : ℚ) : CBOp
  deriving DecidableEq, Repr

def apply_cb_op (cb : CircuitBreaker) : CBOp → CircuitBreaker
  | .upd dt => cb.update dt
  | .set_v v => cb.set_input_voltage v
  | .set_p p => cb.set_input_power p
  | .set_i i => cb.set_input_current i

def apply_cb_ops (cb : CircuitBreaker) (ops : List CBOp) : CircuitBreaker :=
  ops.foldl apply_cb_op cb

/-- A concrete tripped, non-auto-reset breaker with live inputs latched. -/
def c5_cb : CircuitBreaker :=
  { CircuitBreaker.new "Lights CB" 10 TripCurve.Instantaneous false 0 with
    is_tripped := true
    input_voltage := 28
    input_power := 150
    input_current := 12 }

/-- The Binary test light of the example wiring, on and fed 28 V. -/
def c6_light : GenericDcComponent :=
  { GenericDcComponent.new "Test Light" 28 200 20 32 VoltageResponse.Binary
      (9/10) with
    is_on := true
    input_voltage := 28 }

/-- A representative single-rod actuator: 0.1 m bore, 0.05 m rod,
0.3 m stroke, with ordinary fluid and friction parameters. -/
def c7_act : HydraulicActuator :=
  HydraulicActuator.new (F.fin (1/10)) (F.fin (1/20)) (F.fin (3/10))
    (F.fin 180000) (F.fin 850) (F.fin (3/100)) (F.fin (1/100))
    (F.fin 50) (F.fin 100) (F.fin (1/1000)) (F.fin (1/1000))

/-- A freshly constructed actuator at rest: valve closed, zero external
force, zero chamber pressures — and, at position 0, a zero cap-end
chamber volume. -/
def c8_act : HydraulicActuator :=
  HydraulicActuator.new (F.fin (1/10)) (F.fin (1/20)) (F.fin (3/10))
    (F.fin 180000) (F.fin 850) (F.fin (3/100)) (F.fin (1/100))
    (F.fin 50) (F.fin 100) (F.fin (1/1000)) (F.fin (1/1000))

/-- An actuator mid-travel with unit chamber volumes, at rest with a
2 m stroke: its `update` keeps every computation finite. -/
def c9_act : HydraulicActuator :=
  { bore_diameter := F.fin (1/10)
    rod_diameter := F.fin (1/20)
    stroke_length := F.fin 2
    current_position := F.fin 0
    current_velocity := F.fin 0
    current_acceleration := F.fin 0
    fluid_bulk_modulus := F.fin 180000
    fluid_density := F.fin 850
    fluid_viscosity := F.fin (3/100)
    valve_max_flow_rate := F.fin (1/100)
    valve_opening := F.fin 0
    cap_end_pressure := F.fin 0
    rod_end_pressure := F.fin 0
    cap_end_volume := F.fin 1
    rod_end_volume := F.fin 1
    internal_leakage_coefficient := F.fin (1/1000)
    external_leakage_coefficient := F.fin (1/1000)
    static_friction := F.fin 50
    dynamic_friction_coefficient := F.fin 100
    external_force := F.fin 0 }

/-- Two bus nodes, the pair `(0, 1)` wired twice: first 5 Ω then 3 Ω. -/
def c10_sys : ElectricalSystem :=
  (((ElectricalSystem.empty.add_component
      (Component.bus { voltage := 28, power := 0 })).1.add_component
      (Component.bus { voltage := 0, power := 0 })).1.connect_with_wire
      0 1 5).connect_with_wire 0 1 3

/-! ## Shared facts about the graph engine -/

theorem alookup_cons_self {α β : Type} [DecidableEq α] (k : α) (v : β)
    (m : List (α × β)) : alookup ((k, v) :: m) k = some v := by
  simp [alookup, List.find?]

theorem alookup_cons_ne {α β : Type} [DecidableEq α] {k' k : α} (v : β)
    (m : List (α × β)) (h : k' ≠ k) : alookup ((k', v) :: m) k = alookup m k := by
  simp [alookup, List.find?, h]

theorem update_step_edges (dt : ℚ) (s : ElectricalSystem) (n : ℕ) :
    (ElectricalSystem.update_step dt s n).edges = s.edges := by
  unfold ElectricalSystem.update_step
  cases s.components[n]? <;> rfl

theorem update_step_edge_current (dt : ℚ) (s : ElectricalSystem) (n : ℕ) :
    (ElectricalSystem.update_step dt s n).edge_current = s.edge_current := by
  unfold ElectricalSystem.update_step
  cases s.components[n]? <;> rfl

theorem update_step_wire_resistance (dt : ℚ) (s : ElectricalSystem) (n : ℕ) :
    (ElectricalSystem.update_step dt s n).wire_resistance = s.wire_resistance := by
  unfold ElectricalSystem.update_step
  cases s.components[n]? <;> rfl

theorem update_step_components (dt : ℚ) (s : ElectricalSystem) (n : ℕ) :
    (ElectricalSystem.update_step dt s n).components =
      match s.components[n]? with
      | some c => s.components.set n (c.update dt)
      | none => s.components := by
  unfold ElectricalSystem.update_step
  cases s.components[n]? <;> rfl

theorem update_pass_cons (dt : ℚ) (s : ElectricalSystem) (n : ℕ)
    (rest : List ℕ) : s.update_pass dt (n :: rest) =
      (ElectricalSystem.update_step dt s n).update_pass dt rest := rfl

theorem update_pass_edges (dt : ℚ) (order : List ℕ) :
    ∀ s : ElectricalSystem, (s.update_pass dt order).edges = s.edges := by
  induction order with
  | nil => intro s; rfl
  | cons n rest ih =>
    intro s
    rw [update_pass_cons, ih, update_step_edges]

theorem update_pass_edge_current (dt : ℚ) (order : List ℕ) :
    ∀ s : ElectricalSystem, (s.update_pass dt order).edge_current = s.edge_current := by
  induction order with
  | nil => intro s; rfl
  | cons n rest ih =>
    intro s
    rw [update_pass_cons, ih, update_step_edge_current]

theorem update_pass_wire_resistance (dt : ℚ) (order : List ℕ) :
    ∀ s : ElectricalSystem,
      (s.update_pass dt order).wire_resistance = s.wire_resistance := by
  induction order with
  | nil => intro s; rfl
  | cons n rest ih =>
    intro s
    rw [update_pass_cons, ih, update_step_wire_resistance]

/-- Pass 1 over a duplicate-free order updates the component at each
index of the order exactly once and touches nothing else. -/
theorem update_pass_components_getElem (dt : ℚ) (order : List ℕ)
    (hnd : order.Nodup) : ∀ (s : ElectricalSystem) (i : ℕ),
      (s.update_pass dt order).components[i]? =
        if i ∈ order then (s.components[i]?).map (Component.update dt)
        else s.components[i]? := by
  induction order with
  | nil => intro s i; simp [ElectricalSystem.update_pass]
  | cons n rest ih =>
    intro s i
    obtain ⟨hn, hrest⟩ := List.nodup_cons.mp hnd
    rw [update_pass_cons, ih hrest]
    cases hc : s.components[n]? with
    | none =>
      have hcomp : (ElectricalSystem.update_step dt s n).components =
          s.components := by rw [update_step_components, hc]
      rw [hcomp]
      by_cases hi : i ∈ rest
      · simp [hi]
      · by_cases hin : i = n
        · subst hin; simp [hi, hc]
        · simp [hi, hin]
    | some c =>
      have hcomp : (ElectricalSystem.update_step dt s n).components =
          s.components.set n (c.update dt) := by rw [update_step_components, hc]
      rw [hcomp]
      by_cases hi : i ∈ rest
      · have hne : n ≠ i := fun h => hn (h ▸ hi)
        rw [List.getElem?_set_ne hne]
        simp [hi]
      · by_cases hin : i = n
        · subst hin
          have hlt : i < s.components.length := (List.getElem?_eq_some.mp hc).1
          simp [List.getElem?_set_self, hlt, hc, hi]
        · have hne : n ≠ i := fun h => hin h.symm
          rw [List.getElem?_set_ne hne]
          simp [hi, hin]

/-- A successful Kahn run lists exactly the remaining nodes, each once. -/
theorem kahn_perm (edges : List (ℕ × ℕ)) :
    ∀ (fuel : ℕ) (remaining order : List ℕ), remaining.Nodup →
      kahn edges fuel remaining = some order → order.Perm remaining := by
  intro fuel
  induction fuel with
  | zero =>
    intro remaining order hnd h
    unfold kahn at h
    by_cases he : remaining.isEmpty
    · rw [if_pos he] at h
      cases h
      rw [List.isEmpty_iff] at he
      subst he
      exact List.Perm.refl _
    · rw [if_neg he] at h
      cases h
  | succ fuel ih =>
    intro remaining order hnd h
    unfold kahn at h
    by_cases he : remaining.isEmpty
    · rw [if_pos he] at h
      cases h
      rw [List.isEmpty_iff] at he
      subst he
      exact List.Perm.refl _
    · rw [if_neg he] at h
      cases hf : remaining.find? (fun n => no_incoming edges remaining n) with
      | none => rw [hf] at h; cases h
      | some n =>
        rw [hf] at h
        replace h : (kahn edges fuel (remaining.erase n)).map (n :: ·) =
          some order := h
        cases hk : kahn edges fuel (remaining.erase n) with
        | none => rw [hk] at h; cases h
        | some tail =>
          rw [hk] at h
          have horder : order = n :: tail := by
            simpa using h.symm
          subst horder
          have hmem : n ∈ remaining := List.mem_of_find?_eq_some hf
          have hperm := ih (remaining.erase n) tail (hnd.erase n) hk
          exact (hperm.cons n).trans (List.perm_cons_erase hmem).symm

theorem toposort_perm (sys : ElectricalSystem) (order : List ℕ)
    (h : sys.toposort = some order) :
    order.Perm (List.range sys.components.length) :=
  kahn_perm sys.edges sys.components.length
    (List.range sys.components.length) order (List.nodup_range _) h

theorem toposort_mem (sys : ElectricalSystem) (order : List ℕ)
    (h : sys.toposort = some order) (i : ℕ) :
    i ∈ order ↔ i < sys.components.length := by
  rw [(toposort_perm sys order h).mem_iff, List.mem_range]

theorem toposort_nodup (sys : ElectricalSystem) (order : List ℕ)
    (h : sys.toposort = some order) : order.Nodup :=
  (toposort_perm sys order h).nodup_iff.mpr (List.nodup_range _)

/-- Once an edge's freshly computed current is (or will be) cached, the
rest of the flow loop preserves it: re-insertions of the same key insert
the same recomputed value. -/
theorem flow_fold_lookup (comps : List Component) (wres : List ((ℕ × ℕ) × ℚ))
    (ft : ℕ × ℕ) (cur : ℚ) (hfor : edge_current_for comps wres ft = some cur) :
    ∀ (edges : List (ℕ × ℕ)) (m : List ((ℕ × ℕ) × ℚ)),
      (ft ∈ edges ∨ alookup m ft = some cur) →
      alookup (flow_fold comps wres m edges) ft = some cur := by
  intro edges
  induction edges with
  | nil =>
    intro m hm
    cases hm with
    | inl h => cases h
    | inr h => exact h
  | cons e rest ih =>
    intro m hm
    rw [flow_fold]
    apply ih
    by_cases heq : e = ft
    · subst heq
      right
      rw [hfor]
      exact alookup_cons_self e cur m
    · cases hm with
      | inl h =>
        cases List.mem_cons.mp h with
        | inl h2 => exact absurd h2.symm heq
        | inr h2 => exact Or.inl h2
      | inr h =>
        right
        cases hstep : edge_current_for comps wres e with
        | none => exact h
        | some c2 => rw [alookup_cons_ne c2 m heq]; exact h

theorem calculate_current_flow_components (sys : ElectricalSystem) :
    sys.calculate_current_flow.components = sys.components := rfl

theorem push_step_edge_current (n : ℕ) (v p : ℚ) (s2 : ElectricalSystem)
    (nb : ℕ) : (ElectricalSystem.push_step n v p s2 nb).edge_current =
      s2.edge_current := by
  unfold ElectricalSystem.push_step
  cases s2.components[nb]? with
  | none => rfl
  | some nc => cases alookup s2.edge_current (n, nb) <;> rfl

theorem push_fold_edge_current (n : ℕ) (v p : ℚ) (nbs : List ℕ) :
    ∀ s2 : ElectricalSystem,
      (nbs.foldl (ElectricalSystem.push_step n v p) s2).edge_current =
        s2.edge_current := by
  induction nbs with
  | nil => intro s2; rfl
  | cons nb rest ih =>
    intro s2
    show (rest.foldl _ (ElectricalSystem.push_step n v p s2 nb)).edge_current = _
    rw [ih, push_step_edge_current]

theorem propagate_step_edge_current (s : ElectricalSystem) (n : ℕ) :
    (s.propagate_step n).edge_current = s.edge_current := by
  unfold ElectricalSystem.propagate_step
  cases s.components[n]? with
  | none => rfl
  | some c => exact push_fold_edge_current n _ _ _ s

theorem propagate_pass_edge_current (order : List ℕ) :
    ∀ s : ElectricalSystem,
      (s.propagate_pass order).edge_current = s.edge_current := by
  induction order with
  | nil => intro s; rfl
  | cons n rest ih =>
    intro s
    show (rest.foldl _ (s.propagate_step n)).edge_current = _
    rw [show ∀ s2 rest2, (List.foldl ElectricalSystem.propagate_step s2 rest2) =
      ElectricalSystem.propagate_pass s2 rest2 from fun _ _ => rfl, ih,
      propagate_step_edge_current]

theorem update_system_some (sys : ElectricalSystem) (dt : ℚ) (order : List ℕ)
    (h : sys.toposort = some order) : sys.update_system dt =
      ((sys.update_pass dt order).calculate_current_flow).propagate_pass order := by
  unfold ElectricalSystem.update_system
  rw [h]

theorem update_system_none (sys : ElectricalSystem) (dt : ℚ)
    (h : sys.toposort = none) : sys.update_system dt = sys := by
  unfold ElectricalSystem.update_system
  rw [h]

/-! ## Claim theorems -/

/-- Claim C1: for every acyclic network, after one `update_system(dt)`
call the cached current of every edge `(f, t)` equals (output voltage of
the component at `f` minus output voltage of the component at `t`)
divided by the edge's wire resistance when that resistance is positive,
and `0` when it is not — where the voltages are those produced by this
very call's component updates (`Component.update dt` applied to the
pre-call components). -/
theorem c1_edge_current_after_update
    (sys : ElectricalSystem) (dt : ℚ) (order : List ℕ)
    (hord : sys.toposort = some order)
    (f t : ℕ) (he : (f, t) ∈ sys.edges)
    (cf ct : Component)
    (hcf : sys.components[f]? = some cf) (hct : sys.components[t]? = some ct)
    (r : ℚ) (hr : alookup sys.wire_resistance (f, t) = some r) :
    alookup (sys.update_system dt).edge_current (f, t) =
      some (if r > 0 then
        ((cf.update dt).get_output_voltage - (ct.update dt).get_output_voltage) / r
      else 0) := by
  rw [update_system_some sys dt order hord, propagate_pass_edge_current]
  have hnd := toposort_nodup sys order hord
  have hfo : f ∈ order :=
    (toposort_mem sys order hord f).mpr (List.getElem?_eq_some.mp hcf).1
  have hto : t ∈ order :=
    (toposort_mem sys order hord t).mpr (List.getElem?_eq_some.mp hct).1
  have hcf1 : (sys.update_pass dt order).components[f]? = some (cf.update dt) := by
    rw [update_pass_components_getElem dt order hnd sys f, if_pos hfo, hcf]
    rfl
  have hct1 : (sys.update_pass dt order).components[t]? = some (ct.update dt) := by
    rw [update_pass_components_getElem dt order hnd sys t, if_pos hto, hct]
    rfl
  have hwres : (sys.update_pass dt order).wire_resistance = sys.wire_resistance :=
    update_pass_wire_resistance dt order sys
  have hfor : edge_current_for (sys.update_pass dt order).components
      (sys.update_pass dt order).wire_resistance (f, t) =
      some (if r > 0 then
        ((cf.update dt).get_output_voltage - (ct.update dt).get_output_voltage) / r
      else 0) := by
    unfold edge_current_for
    rw [hcf1, hct1, hwres, hr]
  show alookup (flow_fold (sys.update_pass dt order).components
    (sys.update_pass dt order).wire_resistance
    (sys.update_pass dt order).edge_current
    (sys.update_pass dt order).edges) (f, t) = _
  apply flow_fold_lookup _ _ _ _ hfor
  left
  rw [update_pass_edges dt order sys]
  exact he

theorem c1_edge_current_after_update_witness :
    alookup (c1_sys.update_system 1).edge_current (0, 1) =
      some (if (2 : ℚ) > 0 then
        (((Component.bus { voltage := 28, power := 3 }).update 1).get_output_voltage -
          ((Component.bus { voltage := 5, power := 0 }).update 1).get_output_voltage) / 2
      else 0) :=
  c1_edge_current_after_update c1_sys 1 [0, 1] (by decide) 0 1 (by decide)
    (Component.bus { voltage := 28, power := 3 })
    (Component.bus { voltage := 5, power := 0 }) rfl rfl 2 (by decide)

/-- Claim C2 counterexample: on a concrete cyclic network,
`update_system` does not fail — it returns normally (its Rust signature
has no error channel at all) and leaves the entire system state
unchanged, i.e. it silently skips the per-tick component updates and
propagation, contrary to the claim. -/
theorem c2_cyclic_counterexample :
    c2_sys.toposort = none ∧ c2_sys.update_system 16 = c2_sys := by decide

/-- Claim C2 (amended): for every network whose graph has no topological
order (a cycle), `update_system(dt)` returns normally with the system
state completely unchanged — no error is reported and no component
update or propagation happens. -/
theorem c2_cycle_silently_skips (sys : ElectricalSystem) (dt : ℚ)
    (h : sys.toposort = none) : sys.update_system dt = sys :=
  update_system_none sys dt h

theorem c2_cycle_silently_skips_witness : c2_sys.update_system 5 = c2_sys :=
  c2_cycle_silently_skips c2_sys 5 (by decide)

/-- Claim C3: the source computes
`spin_progress = (time_on / spin_up_time * 1000.0).min(1.0)` — a
thousand-fold speed-up of the spin-up.  A generator built with
`spin_up_time = 2000` (ms) that is turned on reaches its full rated
speed (12000 rpm here) after a single `update(2)`, i.e. with only 2 ms
of accumulated on-time, where the claim (and §4.3 of the spec) requires
speed = rated × min(1, time_on / T), i.e. 12 rpm at that point and full
speed only once `time_on ≥ 2000`. -/
theorem c3_spin_up_thousand_times_too_fast :
    ((Generator.new 2 90000 115 400 (95/100) (5/100) 2000 3).turn_on.update
        2).current_rpm = 12000 ∧
    ((Generator.new 2 90000 115 400 (95/100) (5/100) 2000 3).turn_on.update
        2).time_on = 2 ∧
    (Generator.new 2 90000 115 400 (95/100) (5/100) 2000 3).spin_up_time = 2000 ∧
    ((Generator.new 2 90000 115 400 (95/100) (5/100) 2000 3).turn_on.update
        2).current_rpm ≠ 12000 * (2 / 2000) := by
  norm_num [Generator.update, Generator.new, Generator.turn_on]

theorem iter_update_succ (cb : CircuitBreaker) (dt : ℚ) (k : ℕ) :
    iter_update cb dt (k + 1) = (iter_update cb dt k).update dt := rfl

theorem cb_update_tripped_no_auto (cb : CircuitBreaker) (dt : ℚ)
    (h1 : cb.is_tripped = true) (h2 : cb.auto_reset = false) :
    cb.update dt = cb := by
  simp [CircuitBreaker.update, h1, h2]

theorem cb_update_auto_reset (cb : CircuitBreaker) (dt : ℚ) :
    (cb.update dt).auto_reset = cb.auto_reset := by
  cases htr : cb.is_tripped with
  | false =>
    simp only [CircuitBreaker.update, htr, Bool.false_eq_true, if_false]
    split_ifs <;> rfl
  | true =>
    cases har : cb.auto_reset with
    | false => simp [CircuitBreaker.update, htr, har]
    | true =>
      simp only [CircuitBreaker.update, CircuitBreaker.reset, htr, har, if_true]
      split_ifs <;> rfl

theorem iter_update_auto_reset (cb : CircuitBreaker) (dt : ℚ) (k : ℕ) :
    (iter_update cb dt k).auto_reset = cb.auto_reset := by
  induction k with
  | zero => rfl
  | succ k ih => rw [iter_update_succ, cb_update_auto_reset, ih]

/-- One closed-state overcurrent step of a ShortDelay breaker: the dwell
timer advances by `dt / 1000` seconds and the breaker trips exactly when
the advanced dwell has reached the delay. -/
theorem cb_update_closed_overcurrent_shortdelay
    (cb : CircuitBreaker) (dt d : ℚ)
    (hcurve : cb.trip_curve = TripCurve.ShortDelay d)
    (hclosed : cb.is_tripped = false)
    (hover : cb.input_current > cb.rating) :
    cb.update dt = if cb.overcurrent_time + dt / 1000 ≥ d
      then { cb with
             overcurrent_time := cb.overcurrent_time + dt / 1000
             is_tripped := true
             trip_time := 0 }
      else { cb with overcurrent_time := cb.overcurrent_time + dt / 1000 } := by
  simp only [CircuitBreaker.update, CircuitBreaker.should_trip, hclosed,
    Bool.false_eq_true, if_false, if_pos hover, hcurve]
  rw [if_neg (not_le.mpr hover)]
  split_ifs <;> simp_all

/-- Under sustained overcurrent with constant tick length, a fresh
ShortDelay breaker is exactly: still closed with dwell `k·(dt/1000)`
before the delay is reached, tripped from then on. -/
theorem shortdelay_run (cb : CircuitBreaker) (dt d : ℚ)
    (hcurve : cb.trip_curve = TripCurve.ShortDelay d)
    (hclosed : cb.is_tripped = false) (h0 : cb.overcurrent_time = 0)
    (hover : cb.input_current > cb.rating) (har : cb.auto_reset = false)
    (hd : 0 < d) (hdt : 0 < dt) :
    ∀ k : ℕ, if ((k : ℚ)) * (dt / 1000) ≥ d
      then (iter_update cb dt k).is_tripped = true
      else iter_update cb dt k =
        { cb with overcurrent_time := (k : ℚ) * (dt / 1000) } := by
  have hs : 0 < dt / 1000 := by positivity
  intro k
  induction k with
  | zero =>
    rw [if_neg (by push_cast; simp; linarith)]
    have hval : ((0 : ℕ) : ℚ) * (dt / 1000) = cb.overcurrent_time := by
      rw [h0]; push_cast; ring
    have h00 : iter_update cb dt 0 = cb := rfl
    rw [h00, hval]
  | succ k ih =>
    by_cases hk : ((k : ℚ)) * (dt / 1000) ≥ d
    · rw [if_pos hk] at ih
      have hk1 : (((k + 1 : ℕ)) : ℚ) * (dt / 1000) ≥ d := by
        push_cast; nlinarith
      rw [if_pos hk1, iter_update_succ,
        cb_update_tripped_no_auto _ dt ih (by rw [iter_update_auto_reset]; exact har)]
      exact ih
    · rw [if_neg hk] at ih
      rw [iter_update_succ, ih]
      have hstep := cb_update_closed_overcurrent_shortdelay
        { cb with overcurrent_time := (k : ℚ) * (dt / 1000) } dt d hcurve hclosed hover
      rw [hstep]
      have hsum : (((k : ℚ)) * (dt / 1000)) + dt / 1000 =
          ((k + 1 : ℕ) : ℚ) * (dt / 1000) := by push_cast; ring
      by_cases hk1 : (((k + 1 : ℕ)) : ℚ) * (dt / 1000) ≥ d
      · rw [if_pos (show ((k : ℚ)) * (dt / 1000) + dt / 1000 ≥ d by
          rw [hsum]; exact hk1), if_pos hk1]
      · rw [if_neg (show ¬(((k : ℚ)) * (dt / 1000) + dt / 1000 ≥ d) by
          rw [hsum]; exact hk1), if_neg hk1]
        rw [show (({ cb with overcurrent_time := (k : ℚ) * (dt / 1000)
          } : CircuitBreaker).overcurrent_time + dt / 1000) =
          ((k + 1 : ℕ) : ℚ) * (dt / 1000) from hsum]

theorem cb_update_closed_overcurrent_instantaneous
    (cb : CircuitBreaker) (dt : ℚ)
    (hcurve : cb.trip_curve = TripCurve.Instantaneous)
    (hclosed : cb.is_tripped = false)
    (hover : cb.input_current > cb.rating) :
    cb.update dt = { cb with
      overcurrent_time := cb.overcurrent_time + dt / 1000
      is_tripped := true
      trip_time := 0 } := by
  simp only [CircuitBreaker.update, CircuitBreaker.should_trip, hclosed,
    Bool.false_eq_true, if_false, if_pos hover, hcurve]
  rw [if_neg (not_le.mpr hover)]
  simp

theorem cb_update_closed_overcurrent_inversetime
    (cb : CircuitBreaker) (dt : ℚ)
    (hcurve : cb.trip_curve = TripCurve.InverseTime)
    (hclosed : cb.is_tripped = false)
    (hover : cb.input_current > cb.rating) :
    cb.update dt = if cb.overcurrent_time + dt / 1000 ≥
        1 / 10 / ((cb.input_current / cb.rating) * (cb.input_current / cb.rating))
      then { cb with
             overcurrent_time := cb.overcurrent_time + dt / 1000
             is_tripped := true
             trip_time := 0 }
      else { cb with overcurrent_time := cb.overcurrent_time + dt / 1000 } := by
  simp only [CircuitBreaker.update, CircuitBreaker.should_trip, hclosed,
    Bool.false_eq_true, if_false, if_pos hover, hcurve]
  rw [if_neg (not_le.mpr hover)]
  split_ifs <;> simp_all <;> linarith

theorem cb_update_closed_no_overcurrent (cb : CircuitBreaker) (dt : ℚ)
    (hclosed : cb.is_tripped = false)
    (hle : cb.input_current ≤ cb.rating) :
    cb.update dt = { cb with overcurrent_time := 0 } := by
  simp only [CircuitBreaker.update, CircuitBreaker.should_trip, hclosed,
    Bool.false_eq_true, if_false]
  rw [if_neg (not_lt.mpr hle), if_pos hle]
  simp

/-- Claim C4: for a Closed breaker, (a) an Instantaneous curve trips on
the first update whose latched input current exceeds the rating; (b) a
tick at or below rating leaves it Closed and resets the dwell; (c) an
overcurrent tick advances the dwell by `dt/1000` seconds; (d) a
ShortDelay(d) breaker trips exactly when the cumulative overcurrent
dwell reaches `d`; (e) an InverseTime breaker trips exactly when the
dwell reaches `0.1 / (current/rating)²`; and (f) over a run of
constant-overcurrent ticks of length `dt`, a fresh ShortDelay(d)
breaker is tripped after `k` ticks iff `k·(dt/1000) ≥ d`. -/
theorem c4_trip_curves (cb : CircuitBreaker) (dt : ℚ)
    (hclosed : cb.is_tripped = false) :
    (cb.trip_curve = TripCurve.Instantaneous → cb.input_current > cb.rating →
      (cb.update dt).is_tripped = true) ∧
    (cb.input_current ≤ cb.rating →
      (cb.update dt).is_tripped = false ∧ (cb.update dt).overcurrent_time = 0) ∧
    (cb.input_current > cb.rating →
      (cb.update dt).overcurrent_time = cb.overcurrent_time + dt / 1000) ∧
    (∀ d, cb.trip_curve = TripCurve.ShortDelay d → cb.input_current > cb.rating →
      ((cb.update dt).is_tripped = true ↔ cb.overcurrent_time + dt / 1000 ≥ d)) ∧
    (cb.trip_curve = TripCurve.InverseTime → cb.input_current > cb.rating →
      ((cb.update dt).is_tripped = true ↔ cb.overcurrent_time + dt / 1000 ≥
        1 / 10 / ((cb.input_current / cb.rating) * (cb.input_current / cb.rating)))) ∧
    (∀ d k, cb.trip_curve = TripCurve.ShortDelay d → cb.input_current > cb.rating →
      cb.overcurrent_time = 0 → cb.auto_reset = false → 0 < d → 0 < dt →
      ((iter_update cb dt k).is_tripped = true ↔ ((k : ℚ)) * (dt / 1000) ≥ d)) := by
  refine ⟨?_, ?_, ?_, ?_, ?_, ?_⟩
  · intro hcurve hover
    rw [cb_update_closed_overcurrent_instantaneous cb dt hcurve hclosed hover]
  · intro hle
    rw [cb_update_closed_no_overcurrent cb dt hclosed hle]
    exact ⟨hclosed, rfl⟩
  · intro hover
    simp only [CircuitBreaker.update, hclosed, Bool.false_eq_true, if_false,
      if_pos hover]
    split_ifs <;> rfl
  · intro d hcurve hover
    rw [cb_update_closed_overcurrent_shortdelay cb dt d hcurve hclosed hover]
    split_ifs with h
    · simp [h]
    · simp [hclosed, h]
  · intro hcurve hover
    rw [cb_update_closed_overcurrent_inversetime cb dt hcurve hclosed hover]
    split_ifs with h
    · exact ⟨fun _ => h, fun _ => rfl⟩
    · constructor
      · intro htr
        have htr2 : cb.is_tripped = true := htr
        rw [hclosed] at htr2
        cases htr2
      · intro hcond
        exact absurd hcond h
  · intro d k hcurve hover h0 har hd hdt
    have hrun := shortdelay_run cb dt d hcurve hclosed h0 hover har hd hdt k
    by_cases hk : ((k : ℚ)) * (dt / 1000) ≥ d
    · rw [if_pos hk] at hrun
      simp [hrun, hk]
    · rw [if_neg hk] at hrun
      rw [hrun]
      simp [hclosed, hk]

theorem c4_trip_curves_witness :
    (iter_update c4_cb 100 2).is_tripped = true ↔
      ((2 : ℕ) : ℚ) * (100 / 1000) ≥ 2 / 10 :=
  (c4_trip_curves c4_cb 100 rfl).2.2.2.2.2 (2/10) 2 rfl (by decide)
    rfl rfl (by norm_num) (by norm_num)

/-! ## C5: operations on a tripped breaker -/

theorem apply_cb_op_tripped (cb : CircuitBreaker) (op : CBOp)
    (h1 : cb.is_tripped = true) (h2 : cb.auto_reset = false) :
    (apply_cb_op cb op).is_tripped = true ∧
    (apply_cb_op cb op).auto_reset = false := by
  cases op with
  | upd dt => rw [apply_cb_op, cb_update_tripped_no_auto cb dt h1 h2]; exact ⟨h1, h2⟩
  | set_v v => exact ⟨h1, h2⟩
  | set_p p => exact ⟨h1, h2⟩
  | set_i i => exact ⟨h1, h2⟩

/-- Claim C5: a Tripped breaker outputs zero voltage, power and current
regardless of its latched inputs; with `auto_reset = false` no sequence
of updates and input-setter calls ever returns it to Closed; an explicit
`reset()` does. -/
theorem c5_tripped_isolation (cb : CircuitBreaker)
    (htrip : cb.is_tripped = true) (har : cb.auto_reset = false) :
    cb.get_output_voltage = 0 ∧ cb.get_output_power = 0 ∧
    cb.get_output_current = 0 ∧
    (∀ ops : List CBOp, (apply_cb_ops cb ops).is_tripped = true) ∧
    cb.reset.is_tripped = false := by
  refine ⟨?_, ?_, ?_, ?_, rfl⟩
  · simp [CircuitBreaker.get_output_voltage, htrip]
  · simp [CircuitBreaker.get_output_power, htrip]
  · simp [CircuitBreaker.get_output_current, htrip]
  · intro ops
    induction ops generalizing cb with
    | nil => exact htrip
    | cons op rest ih =>
      have hstep := apply_cb_op_tripped cb op htrip har
      exact ih (apply_cb_op cb op) hstep.1 hstep.2

theorem c5_tripped_isolation_witness :
    c5_cb.get_output_voltage = 0 ∧
    (apply_cb_ops c5_cb
      [CBOp.upd 16, CBOp.set_v 28, CBOp.set_i 50, CBOp.upd 16]).is_tripped = true :=
  ⟨(c5_tripped_isolation c5_cb rfl rfl).1,
    (c5_tripped_isolation c5_cb rfl rfl).2.2.2.1 _⟩

/-- Claim C6: a Binary-response load consumes exactly 0 W below the
minimum voltage or while off, and exactly
`nominal_power × load_factor × power_factor` at or above the minimum
while on — a two-valued step of the input voltage, never interpolated. -/
theorem c6_binary_step (l : GenericDcComponent)
    (h : l.voltage_response = VoltageResponse.Binary) :
    (l.is_on = false → l.get_actual_power = 0) ∧
    (l.input_voltage < l.min_voltage → l.get_actual_power = 0) ∧
    (l.is_on = true → l.min_voltage ≤ l.input_voltage →
      l.get_actual_power = l.nominal_power * l.load_factor * l.power_factor) := by
  unfold GenericDcComponent.get_actual_power
  rw [h]
  refine ⟨?_, ?_, ?_⟩
  · intro hoff
    rw [if_neg]
    intro hcond
    rw [hoff] at hcond
    exact absurd hcond.2 (by simp)
  · intro hlow
    rw [if_neg]
    intro hcond
    exact absurd hcond.1 (not_le.mpr hlow)
  · intro hon hv
    rw [if_pos ⟨hv, by rw [hon]⟩]

theorem c6_binary_step_witness :
    c6_light.get_actual_power =
      c6_light.nominal_power * c6_light.load_factor * c6_light.power_factor :=
  (c6_binary_step c6_light rfl).2.2 rfl (by decide)

@[simp] theorem F.add_fin (a b : ℚ) : F.fin a + F.fin b = F.fin (a + b) := rfl

@[simp] theorem F.sub_fin (a b : ℚ) : F.fin a - F.fin b = F.fin (a - b) := rfl

@[simp] theorem F.mul_fin (a b : ℚ) : F.fin a * F.fin b = F.fin (a * b) := rfl

@[simp] theorem F.neg_fin (a : ℚ) : -F.fin a = F.fin (-a) := rfl

@[simp] theorem F.div_fin (a b : ℚ) :
    F.fin a / F.fin b = if b = 0 then F.nan else F.fin (a / b) := rfl

@[simp] theorem F.add_nan_left (x : F) : F.nan + x = F.nan := by cases x <;> rfl

@[simp] theorem F.add_nan_right (x : F) : x + F.nan = F.nan := by cases x <;> rfl

@[simp] theorem F.sub_nan_left (x : F) : F.nan - x = F.nan := by cases x <;> rfl

@[simp] theorem F.sub_nan_right (x : F) : x - F.nan = F.nan := by cases x <;> rfl

@[simp] theorem F.mul_nan_left (x : F) : F.nan * x = F.nan := by cases x <;> rfl

@[simp] theorem F.mul_nan_right (x : F) : x * F.nan = F.nan := by cases x <;> rfl

@[simp] theorem F.div_nan_left (x : F) : F.nan / x = F.nan := by cases x <;> rfl

@[simp] theorem F.div_nan_right (x : F) : x / F.nan = F.nan := by cases x <;> rfl

@[simp] theorem F.neg_nan : -F.nan = F.nan := rfl

@[simp] theorem F.abs_fin (a : ℚ) : F.abs (F.fin a) = F.fin |a| := rfl

@[simp] theorem F.lt_fin (a b : ℚ) : F.lt (F.fin a) (F.fin b) = decide (a < b) := rfl

@[simp] theorem F.le_fin (a b : ℚ) : F.le (F.fin a) (F.fin b) = decide (a ≤ b) := rfl

@[simp] theorem F.lt_nan_left (x : F) : F.lt F.nan x = false := by cases x <;> rfl

@[simp] theorem F.lt_nan_right (x : F) : F.lt x F.nan = false := by cases x <;> rfl

@[simp] theorem F.le_nan_left (x : F) : F.le F.nan x = false := by cases x <;> rfl

@[simp] theorem F.le_nan_right (x : F) : F.le x F.nan = false := by cases x <;> rfl

/-- A NaN passes straight through the position clamp: both comparisons
are false, so the unclamped (NaN) value is returned. -/
@[simp] theorem F.clamp_nan (lo hi : F) : F.clamp F.nan lo hi = F.nan := by
  simp [F.clamp]

/-- Claim C7: the rod-end area used by `HydraulicActuator::update` is
`calculate_area(rod_diameter) - calculate_area(rod_diameter)`, i.e.
exactly zero — not the positive annular area `A(bore) − A(rod)` the
claim describes — so a positive rod-end pressure (500 here) contributes
exactly zero retracting force to the net hydraulic force. -/
theorem c7_rod_end_area_zero :
    c7_act.rod_end_area = F.fin 0 ∧
    calculate_area c7_act.bore_diameter - calculate_area c7_act.rod_diameter ≠
      F.fin 0 ∧
    F.fin 500 * c7_act.rod_end_area = F.fin 0 := by
  refine ⟨?_, ?_, ?_⟩ <;>
    simp [HydraulicActuator.rod_end_area, c7_act, HydraulicActuator.new,
      calculate_area] <;>
    norm_num [pi64]

/-- Claim C8: the rest state is not a fixed point of `update`.  The
fresh actuator sits at position 0 with cap-end volume 0, so the
bulk-modulus pressure step divides `0.0 / 0.0`, which is NaN; the NaN
poisons pressure, force, velocity and position, and the clamp passes it
through (every NaN comparison is false).  After one `update(16)` the
reported position is NaN, not the initial position 0. -/
theorem c8_rest_state_not_fixed :
    c8_act.current_position = F.fin 0 ∧
    c8_act.valve_opening = F.fin 0 ∧
    c8_act.external_force = F.fin 0 ∧
    c8_act.cap_end_pressure = F.fin 0 ∧
    c8_act.cap_end_volume = F.fin 0 ∧
    (c8_act.update (F.fin 16)).current_position = F.nan ∧
    (c8_act.update (F.fin 16)).current_position ≠ c8_act.current_position := by
  have hpos : (0 : ℚ) < 1 / 1000000 := by norm_num
  refine ⟨rfl, rfl, rfl, rfl, ?_, ?_, ?_⟩ <;>
    simp [c8_act, HydraulicActuator.new, HydraulicActuator.update,
      HydraulicActuator.cap_end_area, HydraulicActuator.rod_end_area,
      calculate_area, F.clamp, hpos]

/-- Claim C9 counterexample: `Generator::new` stores
`efficiency * 100.0` with no clamp whatsoever, so a constructor argument
of `2` yields a stored efficiency of `200` — outside `[0,1]` and outside
the documented `[0,100%]` scale, and never clamped on write. -/
theorem c9_generator_efficiency_out_of_range :
    (Generator.new 2 90000 115 400 2 (5/100) 0 3).efficiency = 200 ∧
    ¬((Generator.new 2 90000 115 400 2 (5/100) 0 3).efficiency ≤ 1) ∧
    ¬((Generator.new 2 90000 115 400 2 (5/100) 0 3).efficiency ≤ 100) := by
  norm_num [Generator.new]

/-- `f64::clamp` into an ordered band stays in the band. -/
theorem qclamp_bounds (x lo hi : ℚ) (h : lo ≤ hi) :
    lo ≤ qclamp x lo hi ∧ qclamp x lo hi ≤ hi := by
  unfold qclamp
  split_ifs with h1 h2
  · exact ⟨le_refl _, h⟩
  · exact ⟨h, le_refl _⟩
  · exact ⟨le_of_not_lt h1, le_of_not_lt h2⟩

/-- A finite result of the position clamp lies between the bounds. -/
theorem F.clamp_fin_bounds (x : F) (lo hi q : ℚ) (hlohi : lo ≤ hi)
    (h : F.clamp x (F.fin lo) (F.fin hi) = F.fin q) : lo ≤ q ∧ q ≤ hi := by
  cases x with
  | nan => simp at h
  | fin a =>
    simp only [F.clamp, F.lt_fin, decide_eq_true_eq] at h
    split_ifs at h with h1 h2 <;> rw [F.fin.injEq] at h <;> subst h
    · exact ⟨le_refl _, hlohi⟩
    · exact ⟨hlohi, le_refl _⟩
    · exact ⟨le_of_not_lt h1, le_of_not_lt h2⟩

/-- The position written by `HydraulicActuator::update` is always the
clamp of some computed value into `[0, stroke_length]`. -/
theorem update_position_clamp_shape (a : HydraulicActuator) (dt : F) :
    ∃ x, (a.update dt).current_position = F.clamp x (F.fin 0) a.stroke_length :=
  ⟨_, rfl⟩

/-- Claim C9 (amended): `valve_opening` is clamped into `[0,1]` on every
set; a load's `power_factor` is clamped into `[0,1]` at construction and
its `load_factor` on every set (and starts at 1); the actuator position
produced by `update` lies in `[0, stroke_length]` whenever it is a
finite number (a NaN escapes the clamp, cf. C8); but the generator's
stored efficiency is `100 ×` the constructor argument with no clamping
at all. -/
theorem c9_bounded_fields :
    (∀ (a : HydraulicActuator) (q : ℚ), ∃ q2,
      (a.set_valve_opening (F.fin q)).valve_opening = F.fin q2 ∧
        0 ≤ q2 ∧ q2 ≤ 1) ∧
    (∀ (a : HydraulicActuator) (dt : F) (s q : ℚ),
      a.stroke_length = F.fin s → 0 ≤ s →
      (a.update dt).current_position = F.fin q → 0 ≤ q ∧ q ≤ s) ∧
    (∀ (nm : String) (nv np minv maxv : ℚ) (vr : VoltageResponse) (pf : ℚ),
      0 ≤ (GenericDcComponent.new nm nv np minv maxv vr pf).power_factor ∧
        (GenericDcComponent.new nm nv np minv maxv vr pf).power_factor ≤ 1) ∧
    (∀ (l : GenericDcComponent) (factor : ℚ),
      0 ≤ (l.set_load_factor factor).load_factor ∧
        (l.set_load_factor factor).load_factor ≤ 1) ∧
    (∀ (nm : String) (nv np minv maxv : ℚ) (vr : VoltageResponse) (pf : ℚ),
      (GenericDcComponent.new nm nv np minv maxv vr pf).load_factor = 1) ∧
    (∀ (np rp rv rf e ir st : ℚ) (pc : ℕ),
      (Generator.new np rp rv rf e ir st pc).efficiency = e * 100) := by
  refine ⟨?_, ?_, ?_, ?_, fun _ _ _ _ _ _ _ => rfl, fun _ _ _ _ _ _ _ _ => rfl⟩
  · intro a q
    unfold HydraulicActuator.set_valve_opening
    simp only [F.clamp, F.lt_fin, decide_eq_true_eq]
    split_ifs with h1 h2
    · exact ⟨0, rfl, le_refl 0, by norm_num⟩
    · exact ⟨1, rfl, by norm_num, le_refl 1⟩
    · exact ⟨q, rfl, le_of_not_lt h1, le_of_not_lt h2⟩
  · intro a dt s q hs h0s hq
    obtain ⟨x, hx⟩ := update_position_clamp_shape a dt
    rw [hx, hs] at hq
    exact F.clamp_fin_bounds x 0 s q h0s hq
  · intro nm nv np minv maxv vr pf
    have hproj : (GenericDcComponent.new nm nv np minv maxv vr pf).power_factor =
      qclamp pf 0 1 := rfl
    rw [hproj]
    exact qclamp_bounds pf 0 1 (by norm_num)
  · intro l factor
    have hproj : (l.set_load_factor factor).load_factor = qclamp factor 0 1 := rfl
    rw [hproj]
    exact qclamp_bounds factor 0 1 (by norm_num)

theorem c9_bounded_fields_witness :
    (c9_act.update (F.fin 1)).current_position = F.fin 0 ∧
    (0 ≤ (0 : ℚ) ∧ (0 : ℚ) ≤ 2) := by
  have hpos : (c9_act.update (F.fin 1)).current_position = F.fin 0 := by
    have h6 : (0 : ℚ) < 1 / 1000000 := by norm_num
    have h50 : ¬((50 : ℚ) < 0) := by norm_num
    have h2 : ¬((2 : ℚ) < 0) := by norm_num
    simp [c9_act, HydraulicActuator.update, HydraulicActuator.cap_end_area,
      HydraulicActuator.rod_end_area, calculate_area, F.clamp, h6, h50, h2]
  exact ⟨hpos, c9_bounded_fields.2.1 c9_act (F.fin 1) 2 0 rfl (by norm_num) hpos⟩

/-- Claim C10 counterexample: connecting the ordered pair `(0, 1)` a
second time leaves TWO parallel edges in the graph (petgraph `add_edge`
appends; it never replaces), and the propagation neighbor list of node 0
contains node 1 twice. -/
theorem c10_parallel_edge_counterexample :
    c10_sys.edges = [(0, 1), (0, 1)] ∧
    c10_sys.edges.count (0, 1) = 2 ∧
    neighbors_of c10_sys.edges 0 = [1, 1] := by decide

/-- Claim C10 (amended): re-connecting the same ordered pair overwrites
the stored wire resistance with the new value and resets the cached
current for the pair to zero, but it adds a second parallel edge to the
graph rather than replacing the first, so the pair occurs twice in the
edge list and the downstream neighbor is pushed to twice during
propagation. -/
theorem c10_reconnect_semantics (sys : ElectricalSystem) (f t : ℕ)
    (r1 r2 : ℚ) :
    alookup ((sys.connect_with_wire f t r1).connect_with_wire f t
      r2).wire_resistance (f, t) = some r2 ∧
    alookup ((sys.connect_with_wire f t r1).connect_with_wire f t
      r2).edge_current (f, t) = some 0 ∧
    ((sys.connect_with_wire f t r1).connect_with_wire f t r2).edges =
      sys.edges ++ [(f, t), (f, t)] ∧
    neighbors_of ((sys.connect_with_wire f t r1).connect_with_wire f t
      r2).edges f = t :: t :: neighbors_of sys.edges f := by
  refine ⟨alookup_cons_self _ _ _, alookup_cons_self _ _ _, ?_, ?_⟩
  · simp [ElectricalSystem.connect_with_wire]
  · simp [ElectricalSystem.connect_with_wire, neighbors_of, List.filter_append]
